import Mathlib

/-!
Verification of the four-phase QA pipeline in `app/ui/streamlit_app.py`
(fraud chatbot: router → NL-to-SQL executor → retrieval → composer).

Modelling conventions:
* Python strings are `List Char`; Python JSON-ish values are `Json` below.
* JSON numbers and Python floats are modelled as exact decimals `m / 10^e`
  (`Decimal` below); the scientific-notation and non-finite corners of Python
  floats are outside the modelled fragment (none of the code under scrutiny
  produces them).
* `json.loads` is modelled by `json_loads`, a recursive-descent parser for the
  JSON fragment the application manipulates (objects, arrays, strings with
  simple escapes, decimal numbers, booleans, null).
* Calls to the text-generation backend (`generate_completion`) are external
  nondeterminism: each phase takes the generated raw text as an explicit
  argument, so theorems quantify over every possible model output.  Prompt
  construction only feeds the oracle and is not modelled.
* SQLite execution (`conn.execute(...).fetchall()`) is an external oracle
  `execSql`; `Except.error` models a raised `sqlite3.Error`.
* A phase returning `none` models an uncaught Python exception propagating to
  the caller (e.g. `float()` raising on a non-numeric value, or
  `conn.execute` receiving a non-string statement).
* Wall-clock timing (`elapsed_ms`) is not modelled.
-/

namespace FraudChatbot

/-- Exact decimal number `m / 10 ^ e`; the representation produced by parsing
a JSON/Python numeric literal (no normalization is performed). -/
structure Decimal where
  m : Int
  e : Nat
deriving DecidableEq, Repr

/-- Comparison of decimals by cross-multiplying the (positive) denominators. -/
def Decimal.le (a b : Decimal) : Bool :=
  decide (a.m * (10 : Int) ^ b.e ≤ b.m * (10 : Int) ^ a.e)

/-- JSON values, as produced by `json.loads` on the modelled fragment. -/
inductive Json where
  | null
  | bool (b : Bool)
  | num (d : Decimal)
  | str (s : List Char)
  | arr (elems : List Json)
  | obj (fields : List (List Char × Json))

/-- Python truthiness (`bool(x)`) of a modelled value. -/
def truthy : Json → Bool
  | .null => false
  | .bool b => b
  | .num d => decide (d.m ≠ 0)
  | .str s => ¬ s.isEmpty
  | .arr xs => ¬ xs.isEmpty
  | .obj fs => ¬ fs.isEmpty

/-- Python `a or b` on modelled values: `a` if truthy, else `b`. -/
def pyOr (a b : Json) : Json := if truthy a then a else b

/-- Python `dict` lookup on the association list produced by the JSON parser:
later duplicate keys overwrite earlier ones, exactly as in `json.loads`. -/
def dictGet (fields : List (List Char × Json)) (key : List Char) : Option Json :=
  (fields.reverse.find? (fun kv => kv.1 == key)).map (fun kv => kv.2)

/-- Whitespace as stripped by Python `str.strip` (the characters relevant to
generated text). -/
def isWs (c : Char) : Bool :=
  c = ' ' || c = '\t' || c = '\n' || c = '\r' || c = '\x0b' || c = '\x0c'

/-- Drop leading whitespace. -/
def trimL (l : List Char) : List Char := l.dropWhile isWs

/-- Drop trailing whitespace. -/
def trimR (l : List Char) : List Char := (l.reverse.dropWhile isWs).reverse

/-- Python `str.strip()`. -/
def pyStrip (l : List Char) : List Char := trimR (trimL l)

/-- Skip whitespace inside the JSON parser. -/
def skipWs (l : List Char) : List Char := l.dropWhile isWs

/-- Parse the body of a JSON string after the opening quote, handling the
simple escapes; returns the decoded content and the remaining input. -/
def parseStrBody : List Char → Option (List Char × List Char)
  | [] => none
  | c :: rest =>
    if c = '"' then some ([], rest)
    else if c = '\\' then
      match rest with
      | [] => none
      | e :: rest2 =>
        let ch := if e = 'n' then '\n' else if e = 't' then '\t' else if e = 'r' then '\r' else e
        match parseStrBody rest2 with
        | some (s, r) => some (ch :: s, r)
        | none => none
    else
      match parseStrBody rest with
      | some (s, r) => some (c :: s, r)
      | none => none

/-- Decimal digits to a natural number. -/
def digitsToNat (ds : List Char) : Nat :=
  ds.foldl (fun a c => a * 10 + (c.toNat - 48)) 0

/-- Parse a JSON number (integer part, optional fraction). -/
def parseNum (l : List Char) : Option (Decimal × List Char) :=
  let (neg, l1) := match l with
    | '-' :: r => (true, r)
    | _ => (false, l)
  let ds := l1.takeWhile Char.isDigit
  let l2 := l1.dropWhile Char.isDigit
  if ds.isEmpty then none
  else
    let (d, rest) : Decimal × List Char :=
      match l2 with
      | '.' :: r2 =>
        let fs := r2.takeWhile Char.isDigit
        let r3 := r2.dropWhile Char.isDigit
        if fs.isEmpty then (⟨(digitsToNat ds : Int), 0⟩, l2)
        else (⟨(digitsToNat (ds ++ fs) : Int), fs.length⟩, r3)
      | _ => (⟨(digitsToNat ds : Int), 0⟩, l2)
    some (if neg then ⟨-d.m, d.e⟩ else d, rest)

mutual

/-- Parse one JSON value (fuelled recursive descent). -/
def parseVal : Nat → List Char → Option (Json × List Char)
  | 0, _ => none
  | fuel+1, l =>
    match skipWs l with
    | [] => none
    | '"' :: rest => (parseStrBody rest).map (fun p => (Json.str p.1, p.2))
    | 't' :: 'r' :: 'u' :: 'e' :: rest => some (Json.bool true, rest)
    | 'f' :: 'a' :: 'l' :: 's' :: 'e' :: rest => some (Json.bool false, rest)
    | 'n' :: 'u' :: 'l' :: 'l' :: rest => some (Json.null, rest)
    | '[' :: rest =>
      (match skipWs rest with
       | ']' :: r => some (Json.arr [], r)
       | r =>
         match parseElems fuel r with
         | some (xs, r2) => some (Json.arr xs, r2)
         | none => none)
    | '{' :: rest =>
      (match skipWs rest with
       | '}' :: r => some (Json.obj [], r)
       | r =>
         match parseFields fuel r with
         | some (fs, r2) => some (Json.obj fs, r2)
         | none => none)
    | l2 =>
      match parseNum l2 with
      | some (d, r) => some (Json.num d, r)
      | none => none

/-- Parse the elements of a non-empty JSON array up to the closing bracket. -/
def parseElems : Nat → List Char → Option (List Json × List Char)
  | 0, _ => none
  | fuel+1, l =>
    match parseVal fuel l with
    | none => none
    | some (v, r) =>
      match skipWs r with
      | ',' :: r2 =>
        (match parseElems fuel r2 with
         | some (xs, r3) => some (v :: xs, r3)
         | none => none)
      | ']' :: r2 => some ([v], r2)
      | _ => none

/-- Parse the fields of a non-empty JSON object up to the closing brace. -/
def parseFields : Nat → List Char → Option (List (List Char × Json) × List Char)
  | 0, _ => none
  | fuel+1, l =>
    match skipWs l with
    | '"' :: rest =>
      (match parseStrBody rest with
       | none => none
       | some (k, r) =>
         match skipWs r with
         | ':' :: r2 =>
           (match parseVal fuel r2 with
            | none => none
            | some (v, r3) =>
              match skipWs r3 with
              | ',' :: r4 =>
                (match parseFields fuel r4 with
                 | some (fs, r5) => some ((k, v) :: fs, r5)
                 | none => none)
              | '}' :: r4 => some ([(k, v)], r4)
              | _ => none)
         | _ => none)
    | _ => none

end

/-- Models Python `json.loads` on the fragment: parse one value and require
only trailing whitespace; `none` models a raised `JSONDecodeError`. -/
def json_loads (l : List Char) : Option Json :=
  match parseVal (2 * l.length + 2) l with
  | some (v, rest) => if (skipWs rest).isEmpty then some v else none
  | none => none

/-- Index of the first occurrence of `c` (Python `str.find`; `none` for -1). -/
def pyFind (l : List Char) (c : Char) : Option Nat :=
  match l with
  | [] => none
  | a :: rest => if a = c then some 0 else (pyFind rest c).map (fun i => i + 1)

/-- Index of the last occurrence of `c` (Python `str.rfind`; `none` for -1). -/
def pyRfind (l : List Char) (c : Char) : Option Nat :=
  match l with
  | [] => none
  | a :: rest =>
    match pyRfind rest c with
    | some i => some (i + 1)
    | none => if a = c then some 0 else none

/-- Translation of `safe_json_loads` (streamlit_app.py): strip, try a direct
parse (returning none on a non-dict), else try the substring from the first
opening brace to the last closing brace, inclusive. -/
def safe_json_loads (raw : List Char) : Option (List (List Char × Json)) :=
  let r := pyStrip raw
  if r.isEmpty then none
  else
    match json_loads r with
    | some (Json.obj d) => some d
    | some _ => none
    | none =>
      match pyFind r '{', pyRfind r '}' with
      | some s, some e =>
        if s < e then
          let snippet := (r.drop s).take (e + 1 - s)
          match json_loads snippet with
          | some (Json.obj d) => some d
          | _ => none
        else none
      | _, _ => none

/-- Models Python `float(str)` on a character list: optional sign, digits with
an optional fractional part, surrounded by whitespace only. -/
def pyFloatOfChars (s : List Char) : Option Decimal :=
  let t := pyStrip s
  let (neg, t1) : Bool × List Char := match t with
    | '-' :: r => (true, r)
    | '+' :: r => (false, r)
    | _ => (false, t)
  let a := t1.takeWhile Char.isDigit
  let t2 := t1.dropWhile Char.isDigit
  let mk : Nat → Nat → Decimal := fun m e => if neg then ⟨-(m : Int), e⟩ else ⟨(m : Int), e⟩
  match t2 with
  | [] => if a.isEmpty then none else some (mk (digitsToNat a) 0)
  | '.' :: r =>
    let b := r.takeWhile Char.isDigit
    let t3 := r.dropWhile Char.isDigit
    if t3.isEmpty ∧ ¬ (a.isEmpty ∧ b.isEmpty)
    then some (mk (digitsToNat (a ++ b)) b.length)
    else none
  | _ => none

/-- Models the Python builtin `float()` on modelled values; `none` models a
raised `TypeError`/`ValueError`. -/
def pyFloat : Json → Option Decimal
  | .num d => some d
  | .bool b => some ⟨if b then 1 else 0, 0⟩
  | .str s => pyFloatOfChars s
  | _ => none

/-- Key and message constants of streamlit_app.py. -/
def kRoute : List Char := "route".toList

def kDb : List Char := "db".toList

def kRag : List Char := "rag".toList

def kBoth : List Char := "both".toList

def kGeneral : List Char := "general".toList

def kConfidence : List Char := "confidence".toList

def kReason : List Char := "reason".toList

def kFallback : List Char := "fallback".toList

def kSql : List Char := "sql".toList

def kNotes : List Char := "notes".toList

def kNoSqlMsg : List Char := "No SQL returned".toList

def kSqlErrMsg : List Char := "SQL error: ".toList

def kAnswer : List Char := "answer".toList

def kCitations : List Char := "citations".toList

def kQualityScore : List Char := "quality_score".toList

def kQualityReason : List Char := "quality_reason".toList

def kApology : List Char :=
  "Maaf, aku belum bisa menyusun jawaban dari evidence yang tersedia.".toList

def kNoContextMsg : List Char := "No relevant context retrieved".toList

def kSource : List Char := "source".toList

def kPage : List Char := "page".toList

def kDocument : List Char := "document".toList

def kPageSep : List Char := " p.".toList

def ragSep : List Char := "\n\n---\n\n".toList

/-- Phase-1 route decision (the dict returned by `phase1_route`). -/
structure RouteDecision where
  route : List Char
  confidence : Decimal
  reason : Json
  raw : List Char

/-- A result row, as the `dict(r)` mapping built from a fetched sqlite row. -/
abbrev Row := List (List Char × Json)

/-- The dict returned by `phase2_db`. -/
structure DbResult where
  ok : Bool
  sql : Json
  notes : Json
  rows_preview : Option (List Row)
  error : Option (List Char)
  raw : List Char

/-- One retrieval hit: `(page_content, metadata)` from `retrieve_context`. -/
structure RagHit where
  text : List Char
  meta : List (List Char × Json)

/-- The dict returned by `phase3_rag`. -/
structure RagResult where
  ok : Bool
  context : List Char
  sources : List (List Char)
  answer : Json
  notes : Json
  raw : Option (List Char)

/-- The `evidence["db"]` sub-dict built by `phase4_final`. -/
structure DbEvidence where
  ok : Bool
  sql : Json
  notes : Json
  error : Option (List Char)
  rows_preview : Option (List Row)

/-- The `evidence["rag"]` sub-dict built by `phase4_final`. -/
structure RagEvidence where
  ok : Bool
  notes : Json
  sources : List (List Char)
  phase3_answer : Json
  context : List Char

/-- The evidence blob `phase4_final` serializes into the composer prompt. -/
structure Evidence where
  question : List Char
  route : List Char
  route_confidence : Decimal
  route_reason : Json
  db : Option DbEvidence
  rag : Option RagEvidence

/-- The dict returned by `phase4_final`. -/
structure FinalAnswer where
  answer : Json
  citations : Json
  notes : Json
  quality_score : Decimal
  quality_reason : Json
  raw : List Char
  evidence : Evidence

/-- The response envelope returned by `run_pipeline` (timing omitted). -/
structure Envelope where
  answer : Json
  citations : Json
  mode : List Char
  quality_score : Decimal
  quality_reason : Json
  debug_route : RouteDecision
  debug_db_out : Option DbResult
  debug_rag_out : Option RagResult
  debug_final_notes : Json
  debug_final_raw : List Char
  debug_evidence : Evidence

/-- Python membership test `route in ("db", "rag", "both", "general")` on a
modelled value (a non-string never equals a string). -/
def routeValid : Json → Bool
  | Json.str s => decide (s = kDb ∨ s = kRag ∨ s = kBoth ∨ s = kGeneral)
  | _ => false

/-- Translation of `phase1_route` as a function of the raw model text;
`none` models an uncaught exception from `float(...)`. -/
def phase1_route (raw : List Char) : Option RouteDecision :=
  let obj := (safe_json_loads raw).getD []
  let route0 := (dictGet obj kRoute).getD (Json.str kBoth)
  let route : List Char :=
    match route0 with
    | Json.str s => if s = kDb ∨ s = kRag ∨ s = kBoth ∨ s = kGeneral then s else kBoth
    | _ => kBoth
  let conf0 := (dictGet obj kConfidence).getD (Json.num ⟨0, 0⟩)
  match pyFloat (pyOr conf0 (Json.num ⟨0, 0⟩)) with
  | none => none
  | some confidence =>
    some { route := route, confidence := confidence,
           reason := (dictGet obj kReason).getD (Json.str kFallback), raw := raw }

/-- Translation of `phase2_db` as a function of the raw model text and the
sqlite execution oracle (`Except.error` = raised `sqlite3.Error`).  The outer
`none` models the uncaught `TypeError` of `conn.execute` on a truthy
non-string statement. -/
def phase2_db (raw : List Char)
    (execSql : List Char → Except (List Char) (List Row)) : Option DbResult :=
  let obj := (safe_json_loads raw).getD []
  let sql := (dictGet obj kSql).getD Json.null
  let notes := (dictGet obj kNotes).getD (Json.str [])
  if ¬ truthy sql then
    some { ok := false, sql := Json.null, notes := pyOr notes (Json.str kNoSqlMsg),
           rows_preview := none, error := none, raw := raw }
  else
    match sql with
    | Json.str s =>
      (match execSql s with
       | Except.error e =>
         some { ok := false, sql := Json.str s, notes := notes,
                rows_preview := none, error := some (kSqlErrMsg ++ e), raw := raw }
       | Except.ok rows =>
         some { ok := true, sql := Json.str s, notes := notes,
                rows_preview := some (rows.take 50), error := none, raw := raw })
    | _ => none

/-- The statement `phase2_db` hands to `conn.execute`, if any: the projection
of the executor body onto its interaction with the tabular store. -/
def phase2_sqlExecuted (raw : List Char) : Option (List Char) :=
  let obj := (safe_json_loads raw).getD []
  let sql := (dictGet obj kSql).getD Json.null
  if ¬ truthy sql then none
  else
    match sql with
    | Json.str s => some s
    | _ => none

/-- Modelled from the spec: the allow-list the spec claims the executing
component enforces, "only read-only statement forms permitted", i.e. the
statement must begin (after leading whitespace) with the keyword SELECT.
No such check exists in `src`; this predicate formalizes the claimed one. -/
def is_read_only_select (s : List Char) : Bool :=
  ((s.dropWhile isWs).take 6).map Char.toUpper == "SELECT".toList

/-- Join a list of strings with a separator (Python `sep.join`). -/
def joinSep (sep : List Char) : List (List Char) → List Char
  | [] => []
  | [x] => x
  | x :: xs => x ++ sep ++ joinSep sep xs

/-- Render an integer the way a Python f-string does. -/
def intToChars (i : Int) : List Char :=
  if i < 0 then '-' :: Nat.toDigits 10 i.natAbs else Nat.toDigits 10 i.natAbs

/-- Models the Python `str()` conversion used in citation formatting; the
reprs of containers and non-integer floats are approximated (retrieval
metadata sources are strings in practice, so these branches are unreachable
in the pipeline). -/
def fstr : Json → List Char
  | .str s => s
  | .num d => if d.e = 0 then intToChars d.m
              else intToChars d.m ++ 'e' :: '-' :: Nat.toDigits 10 d.e
  | .bool b => if b then "True".toList else "False".toList
  | .null => "None".toList
  | _ => []

/-- Translation of `format_citations` (rag.py): source name plus 1-based page
when the page is an integer (Python `isinstance(page0, int)`, which is also
true of booleans), then order-preserving de-duplication. -/
def format_citations (metas : List (List (List Char × Json))) : List (List Char) :=
  let cites := metas.map (fun m =>
    let src := pyOr ((dictGet m kSource).getD Json.null) (Json.str kDocument)
    match (dictGet m kPage).getD Json.null with
    | Json.num d =>
      if d.e = 0 then fstr src ++ kPageSep ++ intToChars (d.m + 1) else fstr src
    | Json.bool b => fstr src ++ kPageSep ++ intToChars (if b then 2 else 1)
    | _ => fstr src)
  cites.foldl (fun out c => if out.contains c then out else out ++ [c]) []

/-- Translation of `phase3_rag` as a function of the retrieval hits and the
raw model text (the question feeds only the retrieval and the prompt). -/
def phase3_rag (hits : List RagHit) (raw : List Char) : RagResult :=
  if hits.isEmpty then
    { ok := false, context := [], sources := [], answer := Json.null,
      notes := Json.str kNoContextMsg, raw := none }
  else
    let context := joinSep ragSep (hits.map (fun h => h.text.take 1200))
    let sources := format_citations (hits.map RagHit.meta)
    let obj := (safe_json_loads raw).getD []
    { ok := true, context := context, sources := sources,
      answer := (dictGet obj kAnswer).getD Json.null,
      notes := (dictGet obj kNotes).getD (Json.str []),
      raw := some raw }

/-- The citation backfill step of `phase4_final` (streamlit_app.py lines
240-242): if the composer forgot citations but retrieval carries sources,
attach them; otherwise keep the composer citations unchanged. -/
def backfill (rag_out : Option RagResult) (citations0 : Json) : Json :=
  match rag_out with
  | some r =>
    if ¬ truthy citations0 ∧ ¬ r.sources.isEmpty
    then Json.arr (r.sources.map Json.str)
    else citations0
  | none => citations0

/-- Translation of `phase4_final` as a function of its evidence inputs and the
raw model text; `none` models an uncaught exception from `float(...)`. -/
def phase4_final (question : List Char) (route_decision : RouteDecision)
    (db_out : Option DbResult) (rag_out : Option RagResult)
    (raw : List Char) : Option FinalAnswer :=
  let evidence : Evidence :=
    { question := question
      route := route_decision.route
      route_confidence := route_decision.confidence
      route_reason := route_decision.reason
      db := db_out.map (fun d =>
        { ok := d.ok, sql := d.sql, notes := d.notes, error := d.error,
          rows_preview := d.rows_preview })
      rag := rag_out.map (fun r =>
        { ok := r.ok, notes := r.notes, sources := r.sources,
          phase3_answer := r.answer, context := r.context }) }
  let obj := (safe_json_loads raw).getD []
  let answer := pyOr ((dictGet obj kAnswer).getD Json.null) (Json.str kApology)
  let citations0 := pyOr ((dictGet obj kCitations).getD Json.null) (Json.arr [])
  let notes := pyOr ((dictGet obj kNotes).getD Json.null) (Json.str [])
  let qs0 := (dictGet obj kQualityScore).getD (Json.num ⟨0, 0⟩)
  match pyFloat (pyOr qs0 (Json.num ⟨0, 0⟩)) with
  | none => none
  | some quality_score =>
    let quality_reason := pyOr ((dictGet obj kQualityReason).getD Json.null) (Json.str [])
    let citations := backfill rag_out citations0
    some { answer := answer, citations := citations, notes := notes,
           quality_score := quality_score, quality_reason := quality_reason,
           raw := raw, evidence := evidence }

/-- Translation of `run_pipeline`: phase 1, then the branch structure on the
route (with the db-failure retrieval fallback), then phase 4, assembling the
response envelope.  `none` models an uncaught exception in some phase. -/
def run_pipeline (question : List Char) (routerRaw : List Char)
    (dbRaw : List Char) (execSql : List Char → Except (List Char) (List Row))
    (hits : List RagHit) (ragRaw : List Char) (finalRaw : List Char) :
    Option Envelope :=
  match phase1_route routerRaw with
  | none => none
  | some route =>
    let step : Option (Option DbResult × Option RagResult) :=
      if route.route = kDb ∨ route.route = kBoth then
        match phase2_db dbRaw execSql with
        | none => none
        | some dbo =>
          if route.route = kDb ∧ dbo.ok = false
          then some (some dbo, some (phase3_rag hits ragRaw))
          else some (some dbo, none)
      else some (none, none)
    match step with
    | none => none
    | some (db_out, rag1) =>
      let rag_out :=
        if route.route = kRag ∨ route.route = kBoth
        then some (phase3_rag hits ragRaw)
        else rag1
      match phase4_final question route db_out rag_out finalRaw with
      | none => none
      | some fin =>
        some { answer := fin.answer, citations := fin.citations,
               mode := route.route, quality_score := fin.quality_score,
               quality_reason := fin.quality_reason, debug_route := route,
               debug_db_out := db_out, debug_rag_out := rag_out,
               debug_final_notes := fin.notes, debug_final_raw := fin.raw,
               debug_evidence := fin.evidence }

/-! Concrete model outputs and oracles used in counterexamples and witnesses. -/

/-- A router output that is not JSON at all. -/
def exRawGarbage : List Char := "hello there".toList

/-- A parsed router output whose route value is outside the enumeration. -/
def exRawBadRoute : List Char :=
  "\x7b\"route\": \"sql\", \"confidence\": 1, \"reason\": \"tabular\"\x7d".toList

/-- A parsed router output with a non-numeric confidence. -/
def exRawConfBad : List Char :=
  "\x7b\"route\": \"db\", \"confidence\": \"high\"\x7d".toList

/-- A parsed composer output with a non-numeric quality score. -/
def exRawScoreBad : List Char :=
  "\x7b\"answer\": \"x\", \"quality_score\": \"best\"\x7d".toList

/-- A synthesizer output carrying a mutating statement. -/
def exRawDelete : List Char :=
  "\x7b\"sql\": \"DELETE FROM transactions\", \"notes\": \"\"\x7d".toList

/-- The mutating statement inside `exRawDelete`. -/
def exDeleteStmt : List Char := "DELETE FROM transactions".toList

/-- A synthesizer output declaring the question unsupported. -/
def exRawSqlNull : List Char :=
  "\x7b\"sql\": null, \"notes\": \"UNSUPPORTED: requires external data\"\x7d".toList

/-- A synthesizer output carrying a read-only statement. -/
def exRawSelect : List Char :=
  "\x7b\"sql\": \"SELECT category FROM transactions LIMIT 50\", \"notes\": \"ok\"\x7d".toList

/-- The statement inside `exRawSelect`. -/
def exSelectStmt : List Char := "SELECT category FROM transactions LIMIT 50".toList

/-- A router output deciding route db. -/
def exRawRouteDb : List Char :=
  "\x7b\"route\": \"db\", \"confidence\": 0.9, \"reason\": \"analytics\"\x7d".toList

/-- A router output deciding route general. -/
def exRawRouteGeneral : List Char :=
  "\x7b\"route\": \"general\", \"confidence\": 1, \"reason\": \"smalltalk\"\x7d".toList

/-- A composer output that does emit citations. -/
def exRawFinalCited : List Char :=
  "\x7b\"answer\": \"hello\", \"citations\": [\"made-up.pdf\"], \"quality_score\": 1\x7d".toList

/-- A composer output with a quality score outside the unit interval. -/
def exRawFinalScore3 : List Char :=
  "\x7b\"answer\": \"ok\", \"quality_score\": 3\x7d".toList

/-- A composer output with no citations key. -/
def exRawFinalNoCit : List Char :=
  "\x7b\"answer\": \"grounded answer\", \"quality_score\": 0.8\x7d".toList

/-- Sixty result rows, to exercise the 50-row preview bound. -/
def exRows : List Row := List.replicate 60 [("amt".toList, Json.num ⟨5, 0⟩)]

/-- One retrieval hit with source and page metadata. -/
def exHit : RagHit :=
  { text := "Card skimming is the capture of magnetic stripe data.".toList,
    meta := [(kSource, Json.str "Bhatla.pdf".toList), (kPage, Json.num ⟨2, 0⟩)] }

/-- An arbitrary route decision used where `phase4_final` ignores it. -/
def rdAny : RouteDecision :=
  { route := kGeneral, confidence := ⟨1, 0⟩, reason := Json.str [], raw := [] }

/-- A retrieval result with one source, built by the real `phase3_rag`. -/
def roBhatla : RagResult := phase3_rag [exHit] "no json here".toList

/-- A store oracle that rejects every statement, echoing it in the message. -/
def exOracleFail : List Char → Except (List Char) (List Row) :=
  fun s => Except.error ("near ".toList ++ s)

/-- A store oracle that returns sixty rows for every statement. -/
def exOracleRows : List Char → Except (List Char) (List Row) :=
  fun _ => Except.ok exRows

/-- Prose around an embedded object for the parser round-trip claims. -/
def exProseP : List Char := "Sure: ".toList

/-- Inner fields of the embedded object. -/
def exMid : List Char := "\"a\": 1".toList

/-- Prose suffix for the parser round-trip claims. -/
def exProseX : List Char := " hope this helps".toList

/-- A prose prefix containing a stray opening brace. -/
def exPrefixBrace : List Char := "note \x7b here ".toList

/-- The embedded object text used in the round-trip counterexample. -/
def exObjText : List Char := "\x7b\"a\": 1\x7d".toList

/-- A complete run routed `general` whose composer emits a citation. -/
def envGeneralCitedRun : Option Envelope :=
  run_pipeline "hi".toList exRawRouteGeneral "x".toList exOracleFail [] "x".toList
    exRawFinalCited

/-- A complete run routed `general` whose composer emits no citations. -/
def envGeneralPlainRun : Option Envelope :=
  run_pipeline "hi".toList exRawRouteGeneral "x".toList exOracleFail [] "x".toList
    exRawFinalNoCit

/-- A complete run routed `db` whose synthesizer declines, triggering the
retrieval fallback before composing. -/
def envDbFallbackRun : Option Envelope :=
  run_pipeline "q".toList exRawRouteDb exRawSqlNull exOracleFail [exHit]
    "no json".toList exRawFinalNoCit

/-- A complete run whose composer reports a quality score of 3. -/
def envScore3Run : Option Envelope :=
  run_pipeline "q".toList exRawRouteGeneral "x".toList exOracleFail [] "x".toList
    exRawFinalScore3

/-! Helper lemmas shared by the claim theorems. -/

/-- Characterization of a successful `phase4_final` call: how each field of the
returned dict is computed from the parsed composer output and the evidence. -/
theorem phase4_final_spec (q : List Char) (rd : RouteDecision) (dbo : Option DbResult)
    (ro : Option RagResult) (raw : List Char) (fa : FinalAnswer)
    (h : phase4_final q rd dbo ro raw = some fa) :
    pyFloat (pyOr ((dictGet ((safe_json_loads raw).getD []) kQualityScore).getD
        (Json.num ⟨0, 0⟩)) (Json.num ⟨0, 0⟩)) = some fa.quality_score ∧
    fa.answer = pyOr ((dictGet ((safe_json_loads raw).getD []) kAnswer).getD Json.null)
      (Json.str kApology) ∧
    fa.citations =
      backfill ro (pyOr ((dictGet ((safe_json_loads raw).getD []) kCitations).getD Json.null)
        (Json.arr [])) ∧
    fa.evidence =
      { question := q, route := rd.route, route_confidence := rd.confidence,
        route_reason := rd.reason,
        db := dbo.map (fun d =>
          { ok := d.ok, sql := d.sql, notes := d.notes, error := d.error,
            rows_preview := d.rows_preview }),
        rag := ro.map (fun r =>
          { ok := r.ok, notes := r.notes, sources := r.sources,
            phase3_answer := r.answer, context := r.context }) } ∧
    fa.raw = raw := by
  simp only [phase4_final] at h
  rcases hq : pyFloat (pyOr ((dictGet ((safe_json_loads raw).getD []) kQualityScore).getD
      (Json.num ⟨0, 0⟩)) (Json.num ⟨0, 0⟩)) with _ | qs
  · rw [hq] at h
    exact absurd h (by simp)
  · rw [hq] at h
    cases h
    exact ⟨rfl, rfl, rfl, rfl, rfl⟩

/-! Claim C2: router fallback behavior. -/

/-- Claim C2 counterexample: on a parsed router output whose route value is
out of the enumeration (`"sql"`), `phase1_route` coerces the route to `both`
but keeps the parsed confidence (1.0, not 0.0) and the parsed reason
(`"tabular"`, not `"fallback"`), so the claim as stated is false. -/
theorem c2_counterexample :
    ¬ (∀ raw obj, safe_json_loads raw = some obj →
        routeValid ((dictGet obj kRoute).getD (Json.str kBoth)) = false →
        phase1_route raw =
          some { route := kBoth, confidence := ⟨0, 0⟩,
                 reason := Json.str kFallback, raw := raw }) := by
  intro hAll
  have h := hAll exRawBadRoute
    [(kRoute, Json.str "sql".toList), (kConfidence, Json.num ⟨1, 0⟩),
     (kReason, Json.str "tabular".toList)] rfl rfl
  rw [show phase1_route exRawBadRoute =
      some { route := kBoth, confidence := ⟨1, 0⟩,
             reason := Json.str "tabular".toList, raw := exRawBadRoute } from rfl] at h
  have h3 := congrArg (fun o => (Option.map RouteDecision.confidence o).getD ⟨9, 9⟩) h
  simp at h3

/-- Claim C2 (amended): if the router text fails structured parsing,
`phase1_route` returns exactly route `both`, confidence 0.0 and reason
`"fallback"`; if it parses but the route value is out of the enumeration,
the route is coerced to `both` while confidence and reason are taken from
the parsed object (`float(confidence or 0.0)`, reason defaulting to
`"fallback"` only when the key is absent). -/
theorem phase1_route_fallback (raw : List Char) :
    (safe_json_loads raw = none →
      phase1_route raw =
        some { route := kBoth, confidence := ⟨0, 0⟩,
               reason := Json.str kFallback, raw := raw }) ∧
    (∀ obj, safe_json_loads raw = some obj →
      routeValid ((dictGet obj kRoute).getD (Json.str kBoth)) = false →
      phase1_route raw =
        (pyFloat (pyOr ((dictGet obj kConfidence).getD (Json.num ⟨0, 0⟩))
            (Json.num ⟨0, 0⟩))).map
          (fun c => { route := kBoth, confidence := c,
                      reason := (dictGet obj kReason).getD (Json.str kFallback),
                      raw := raw })) := by
  constructor
  · intro h
    simp only [phase1_route, h, Option.getD_none]
    rfl
  · intro obj hp hv
    simp only [phase1_route, hp, Option.getD_some]
    rcases hr : (dictGet obj kRoute).getD (Json.str kBoth) with _ | b | d | s | xs | fs <;>
      rw [hr] at hv <;>
      simp only [routeValid, decide_eq_false_iff_not] at hv <;>
      rcases hq : pyFloat (pyOr ((dictGet obj kConfidence).getD (Json.num ⟨0, 0⟩))
        (Json.num ⟨0, 0⟩)) with _ | c <;>
      simp [hq, hv]

/-- Claim C2 witness: the amended theorem applied to a concrete unparsable
router text and to a concrete out-of-enumeration router output. -/
theorem phase1_route_fallback_witness :
    phase1_route exRawGarbage =
      some { route := kBoth, confidence := ⟨0, 0⟩,
             reason := Json.str kFallback, raw := exRawGarbage } ∧
    phase1_route exRawBadRoute =
      (pyFloat (pyOr ((dictGet
          [(kRoute, Json.str "sql".toList), (kConfidence, Json.num ⟨1, 0⟩),
           (kReason, Json.str "tabular".toList)] kConfidence).getD (Json.num ⟨0, 0⟩))
          (Json.num ⟨0, 0⟩))).map
        (fun c => { route := kBoth, confidence := c,
                    reason := (dictGet
                      [(kRoute, Json.str "sql".toList), (kConfidence, Json.num ⟨1, 0⟩),
                       (kReason, Json.str "tabular".toList)] kReason).getD
                        (Json.str kFallback),
                    raw := exRawBadRoute }) :=
  ⟨(phase1_route_fallback exRawGarbage).1 rfl,
   (phase1_route_fallback exRawBadRoute).2
     [(kRoute, Json.str "sql".toList), (kConfidence, Json.num ⟨1, 0⟩),
      (kReason, Json.str "tabular".toList)] rfl rfl⟩

/-! Claim C5: defensive parsing never propagates exceptions. -/

/-- Claim C5 counterexample: a router output that parses successfully but
carries a non-numeric confidence makes `float(...)` raise (modelled `none`),
and likewise a composer output with a non-numeric quality score; both
exceptions propagate to the caller, so the claim as stated is false. -/
theorem c5_counterexample :
    phase1_route exRawConfBad = none ∧
    phase4_final [] rdAny none none exRawScoreBad = none ∧
    safe_json_loads exRawConfBad ≠ none ∧ safe_json_loads exRawScoreBad ≠ none := by
  refine ⟨rfl, rfl, ?_, ?_⟩
  · intro h
    rw [show safe_json_loads exRawConfBad =
          some [(kRoute, Json.str kDb), (kConfidence, Json.str "high".toList)] from rfl] at h
    exact Option.noConfusion h
  · intro h
    rw [show safe_json_loads exRawScoreBad =
          some [(kAnswer, Json.str "x".toList),
                (kQualityScore, Json.str "best".toList)] from rfl] at h
    exact Option.noConfusion h

/-- Claim C5 (amended): when the generated text fails structured parsing,
`phase1_route` returns the fallback decision and `phase4_final` returns the
fixed apology answer with zero score, neither raising; the safe-default
guarantee does not extend to parsed objects with non-float-coercible
confidence or quality_score fields. -/
theorem parse_failure_defaults (raw : List Char) (h : safe_json_loads raw = none) :
    phase1_route raw =
      some { route := kBoth, confidence := ⟨0, 0⟩,
             reason := Json.str kFallback, raw := raw } ∧
    (∀ q rd dbo ro, ∃ fa, phase4_final q rd dbo ro raw = some fa ∧
       fa.answer = Json.str kApology ∧ fa.quality_score = ⟨0, 0⟩ ∧
       fa.citations = backfill ro (Json.arr [])) := by
  constructor
  · simp only [phase1_route, h, Option.getD_none]
    rfl
  · intro q rd dbo ro
    simp only [phase4_final, h, Option.getD_none]
    exact ⟨_, rfl, rfl, rfl, rfl⟩

/-- Claim C5 witness: the amended theorem applied to a concrete unparsable
text, for both phases. -/
theorem parse_failure_defaults_witness :
    phase1_route exRawGarbage =
      some { route := kBoth, confidence := ⟨0, 0⟩,
             reason := Json.str kFallback, raw := exRawGarbage } ∧
    ∃ fa, phase4_final [] rdAny none none exRawGarbage = some fa ∧
      fa.answer = Json.str kApology ∧ fa.quality_score = ⟨0, 0⟩ ∧
      fa.citations = backfill none (Json.arr []) :=
  ⟨(parse_failure_defaults exRawGarbage rfl).1,
   (parse_failure_defaults exRawGarbage rfl).2 [] rdAny none none⟩

/-! Claim C7: the executor's three-case postcondition. -/

/-- Claim C7: `phase2_db` satisfies the three-case postcondition: a falsy
sql value yields the declared-unsupported result (ok false, sql null, null
error, no preview); a store failure yields ok false with the attempted
statement preserved and a non-null error; a successful execution yields
ok true, null error and a preview of at most the first 50 rows. -/
theorem phase2_db_postcondition (raw : List Char)
    (execSql : List Char → Except (List Char) (List Row)) :
    (truthy ((dictGet ((safe_json_loads raw).getD []) kSql).getD Json.null) = false →
      phase2_db raw execSql =
        some { ok := false, sql := Json.null,
               notes := pyOr ((dictGet ((safe_json_loads raw).getD []) kNotes).getD
                 (Json.str [])) (Json.str kNoSqlMsg),
               rows_preview := none, error := none, raw := raw }) ∧
    (∀ s e, (dictGet ((safe_json_loads raw).getD []) kSql).getD Json.null = Json.str s →
      s ≠ [] → execSql s = Except.error e →
      phase2_db raw execSql =
        some { ok := false, sql := Json.str s,
               notes := (dictGet ((safe_json_loads raw).getD []) kNotes).getD (Json.str []),
               rows_preview := none, error := some (kSqlErrMsg ++ e), raw := raw }) ∧
    (∀ s rows, (dictGet ((safe_json_loads raw).getD []) kSql).getD Json.null = Json.str s →
      s ≠ [] → execSql s = Except.ok rows →
      phase2_db raw execSql =
        some { ok := true, sql := Json.str s,
               notes := (dictGet ((safe_json_loads raw).getD []) kNotes).getD (Json.str []),
               rows_preview := some (rows.take 50), error := none, raw := raw } ∧
      (rows.take 50).length ≤ 50) := by
  refine ⟨?_, ?_, ?_⟩
  · intro htr
    simp only [phase2_db, htr]
    rfl
  · intro s e hs hne hex
    have htr : truthy (Json.str s) = true := by simpa [truthy] using hne
    simp only [phase2_db, hs, htr, hex]
    simp
  · intro s rows hs hne hex
    have htr : truthy (Json.str s) = true := by simpa [truthy] using hne
    constructor
    · simp only [phase2_db, hs, htr, hex]
      simp
    · exact List.length_take_le 50 rows

/-- Claim C7 witness: the three cases at concrete inputs — a null-sql
synthesizer output, a statement rejected by the store, and a statement
returning sixty rows of which the preview keeps fifty. -/
theorem phase2_db_postcondition_witness :
    phase2_db exRawSqlNull exOracleFail =
      some { ok := false, sql := Json.null,
             notes := pyOr ((dictGet ((safe_json_loads exRawSqlNull).getD []) kNotes).getD
               (Json.str [])) (Json.str kNoSqlMsg),
             rows_preview := none, error := none, raw := exRawSqlNull } ∧
    phase2_db exRawSelect exOracleFail =
      some { ok := false, sql := Json.str exSelectStmt,
             notes := (dictGet ((safe_json_loads exRawSelect).getD []) kNotes).getD
               (Json.str []),
             rows_preview := none, error := some (kSqlErrMsg ++ ("near ".toList ++ exSelectStmt)),
             raw := exRawSelect } ∧
    (phase2_db exRawSelect exOracleRows =
      some { ok := true, sql := Json.str exSelectStmt,
             notes := (dictGet ((safe_json_loads exRawSelect).getD []) kNotes).getD
               (Json.str []),
             rows_preview := some (exRows.take 50), error := none, raw := exRawSelect } ∧
      (exRows.take 50).length ≤ 50) :=
  ⟨(phase2_db_postcondition exRawSqlNull exOracleFail).1 rfl,
   (phase2_db_postcondition exRawSelect exOracleFail).2.1 exSelectStmt
     ("near ".toList ++ exSelectStmt) rfl (by decide) rfl,
   (phase2_db_postcondition exRawSelect exOracleRows).2.2 exSelectStmt exRows rfl
     (by decide) rfl⟩

/-! Claim C8: citation backfill. -/

/-- Claim C8: in the backfill step, an empty (falsy) composer citations value
with non-empty retrieval sources is replaced by exactly those sources; a
truthy composer citations value is never overwritten even when retrieval
sources differ; and with no retrieval result the composer citations pass
through unchanged — never an additive merge. -/
theorem phase4_backfill_exact (q : List Char) (rd : RouteDecision)
    (dbo : Option DbResult) (ro : Option RagResult) (raw : List Char) (fa : FinalAnswer)
    (h : phase4_final q rd dbo ro raw = some fa) :
    (∀ r, ro = some r →
      truthy (pyOr ((dictGet ((safe_json_loads raw).getD []) kCitations).getD Json.null)
        (Json.arr [])) = false →
      r.sources ≠ [] → fa.citations = Json.arr (r.sources.map Json.str)) ∧
    (truthy (pyOr ((dictGet ((safe_json_loads raw).getD []) kCitations).getD Json.null)
        (Json.arr [])) = true →
      fa.citations = pyOr ((dictGet ((safe_json_loads raw).getD []) kCitations).getD Json.null)
        (Json.arr [])) ∧
    (ro = none →
      fa.citations = pyOr ((dictGet ((safe_json_loads raw).getD []) kCitations).getD Json.null)
        (Json.arr [])) := by
  obtain ⟨-, -, hc, -, -⟩ := phase4_final_spec q rd dbo ro raw fa h
  refine ⟨?_, ?_, ?_⟩
  · intro r hro htr hne
    rw [hc, hro]
    simp [backfill, htr, hne]
  · intro htr
    rw [hc]
    cases ro with
    | none => rfl
    | some r => simp [backfill, htr]
  · intro hro
    rw [hc, hro]
    rfl

/-- Claim C8 witness: the theorem applied to a concrete composer output with
no citations and a retrieval result carrying one source (backfill fires), and
to a composer output with its own citation (left unchanged). -/
theorem phase4_backfill_exact_witness :
    (∃ fa, phase4_final [] rdAny none (some roBhatla) exRawFinalNoCit = some fa ∧
      fa.citations = Json.arr (roBhatla.sources.map Json.str)) ∧
    (∃ fa, phase4_final [] rdAny none (some roBhatla) exRawFinalCited = some fa ∧
      fa.citations = pyOr ((dictGet ((safe_json_loads exRawFinalCited).getD [])
        kCitations).getD Json.null) (Json.arr [])) := by
  constructor
  · refine ⟨(phase4_final [] rdAny none (some roBhatla) exRawFinalNoCit).get (by rfl), ?_, ?_⟩
    · exact (Option.some_get (by rfl)).symm
    · exact (phase4_backfill_exact [] rdAny none (some roBhatla) exRawFinalNoCit _
        (Option.some_get (by rfl)).symm).1 roBhatla rfl rfl (by decide)
  · refine ⟨(phase4_final [] rdAny none (some roBhatla) exRawFinalCited).get (by rfl), ?_, ?_⟩
    · exact (Option.some_get (by rfl)).symm
    · exact (phase4_backfill_exact [] rdAny none (some roBhatla) exRawFinalCited _
        (Option.some_get (by rfl)).symm).2.1 rfl

/-! Claim C1: no allow-list in the executing component. -/

/-- Claim C1 counterexample: the executor passes a DELETE statement to the
store (no allow-list check exists in `phase2_db`), so the claim that every
executed statement is a read-only SELECT is false. -/
theorem c1_counterexample :
    ¬ (∀ raw s, phase2_sqlExecuted raw = some s → is_read_only_select s = true) := by
  intro hAll
  have h := hAll exRawDelete exDeleteStmt rfl
  rw [show is_read_only_select exDeleteStmt = false from rfl] at h
  exact Bool.noConfusion h

/-- Claim C1 (amended): `phase2_db` applies no allow-list: the statement that
reaches the store is exactly the synthesizer's string whenever that string is
truthy (non-empty), regardless of its form, and the store oracle is then
invoked on it verbatim; read-only execution is an instruction-level
expectation, not enforced by the executing component. -/
theorem phase2_sqlExecuted_eq (raw : List Char) :
    phase2_sqlExecuted raw =
      (match (dictGet ((safe_json_loads raw).getD []) kSql).getD Json.null with
       | Json.str t => if t.isEmpty then none else some t
       | _ => none) := by
  simp only [phase2_sqlExecuted]
  rcases hv : (dictGet ((safe_json_loads raw).getD []) kSql).getD Json.null with
    _ | b | d | t | xs | fs
  · rfl
  · cases b <;> rfl
  · by_cases hd : d.m = 0 <;> simp [truthy, hd]
  · by_cases ht : t = []
    · subst ht
      rfl
    · have ht' : t.isEmpty = false := by simpa using ht
      simp [truthy, ht']
  · by_cases hx : xs = []
    · subst hx
      rfl
    · have hx' : xs.isEmpty = false := by simpa using hx
      simp [truthy, hx']
  · by_cases hf : fs = []
    · subst hf
      rfl
    · have hf' : fs.isEmpty = false := by simpa using hf
      simp [truthy, hf']

/-- Claim C1 (amended): `phase2_db` applies no allow-list: the statement that
reaches the store is exactly the synthesizer's string whenever that string is
truthy (non-empty), regardless of its form, and the store oracle is then
invoked on it verbatim; read-only execution is an instruction-level
expectation, not enforced by the executing component. -/
theorem phase2_db_passthrough (raw s : List Char) :
    (phase2_sqlExecuted raw = some s ↔
      (dictGet ((safe_json_loads raw).getD []) kSql = some (Json.str s) ∧ s ≠ [])) ∧
    (∀ execSql e, phase2_sqlExecuted raw = some s → execSql s = Except.error e →
      phase2_db raw execSql =
        some { ok := false, sql := Json.str s,
               notes := (dictGet ((safe_json_loads raw).getD []) kNotes).getD (Json.str []),
               rows_preview := none, error := some (kSqlErrMsg ++ e), raw := raw }) := by
  constructor
  · rw [phase2_sqlExecuted_eq]
    rcases hg : dictGet ((safe_json_loads raw).getD []) kSql with _ | j
    · simp
    · simp only [Option.getD_some]
      rcases j with _ | b | d | t | xs | fs <;> simp
      constructor
      · rintro ⟨hne, rfl⟩
        exact ⟨rfl, hne⟩
      · rintro ⟨rfl, hne⟩
        exact ⟨hne, rfl⟩
  · intro execSql e hx hex
    rw [phase2_sqlExecuted_eq] at hx
    rcases hg : dictGet ((safe_json_loads raw).getD []) kSql with _ | j
    · rw [hg] at hx
      exact absurd hx (by simp)
    · rw [hg] at hx
      rcases j with _ | b | d | t | xs | fs <;> simp at hx
      obtain ⟨hne, rfl⟩ := hx
      have htr : truthy (Json.str t) = true := by simpa [truthy] using hne
      simp only [phase2_db, hg, Option.getD_some, htr, hex]
      simp

/-- Claim C1 witness: the amended theorem applied to the DELETE statement and
a failing store oracle — the non-SELECT statement reaches the store verbatim
and its rejection message echoes it. -/
theorem phase2_db_passthrough_witness :
    phase2_sqlExecuted exRawDelete = some exDeleteStmt ∧
    phase2_db exRawDelete exOracleFail =
      some { ok := false, sql := Json.str exDeleteStmt,
             notes := (dictGet ((safe_json_loads exRawDelete).getD []) kNotes).getD
               (Json.str []),
             rows_preview := none,
             error := some (kSqlErrMsg ++ ("near ".toList ++ exDeleteStmt)),
             raw := exRawDelete } :=
  ⟨((phase2_db_passthrough exRawDelete exDeleteStmt).1).mpr ⟨rfl, by decide⟩,
   (phase2_db_passthrough exRawDelete exDeleteStmt).2 exOracleFail
     ("near ".toList ++ exDeleteStmt) rfl rfl⟩

/-! Orchestrator machinery shared by the pipeline-level claims. -/

/-- The route returned by `phase1_route` is always one of the four values. -/
theorem phase1_route_route_mem (raw : List Char) (rd : RouteDecision)
    (h : phase1_route raw = some rd) :
    rd.route = kDb ∨ rd.route = kRag ∨ rd.route = kBoth ∨ rd.route = kGeneral := by
  simp only [phase1_route] at h
  rcases hq : pyFloat (pyOr ((dictGet ((safe_json_loads raw).getD []) kConfidence).getD
      (Json.num ⟨0, 0⟩)) (Json.num ⟨0, 0⟩)) with _ | c <;> rw [hq] at h
  · exact absurd h (by simp)
  · cases h
    rcases hv : (dictGet ((safe_json_loads raw).getD []) kRoute).getD (Json.str kBoth) with
      _ | b | d | s | xs | fs
    · right; right; left; rfl
    · right; right; left; rfl
    · right; right; left; rfl
    · by_cases hs : s = kDb ∨ s = kRag ∨ s = kBoth ∨ s = kGeneral
      · simpa only [if_pos hs] using hs
      · simp [if_neg hs]
    · right; right; left; rfl
    · right; right; left; rfl

/-- Characterization of a completed `run_pipeline` call: the route comes from
phase 1, the branch outputs obey the route conditions (with the db-failure
retrieval fallback), and the envelope is assembled from phase 4. -/
theorem run_pipeline_cases (q rr dr : List Char)
    (ex : List Char → Except (List Char) (List Row)) (hits : List RagHit)
    (rg fr : List Char) (env : Envelope)
    (h : run_pipeline q rr dr ex hits rg fr = some env) :
    ∃ route db_out rag_out fin,
      phase1_route rr = some route ∧
      phase4_final q route db_out rag_out fr = some fin ∧
      env = { answer := fin.answer, citations := fin.citations, mode := route.route,
              quality_score := fin.quality_score, quality_reason := fin.quality_reason,
              debug_route := route, debug_db_out := db_out, debug_rag_out := rag_out,
              debug_final_notes := fin.notes, debug_final_raw := fin.raw,
              debug_evidence := fin.evidence } ∧
      ((route.route = kDb ∨ route.route = kBoth) →
        ∃ dbo, phase2_db dr ex = some dbo ∧ db_out = some dbo) ∧
      (¬ (route.route = kDb ∨ route.route = kBoth) → db_out = none) ∧
      ((route.route = kRag ∨ route.route = kBoth) → rag_out = some (phase3_rag hits rg)) ∧
      (¬ (route.route = kRag ∨ route.route = kBoth) →
        ∀ dbo, db_out = some dbo →
          rag_out = (if route.route = kDb ∧ dbo.ok = false
                     then some (phase3_rag hits rg) else none)) ∧
      (¬ (route.route = kRag ∨ route.route = kBoth) → db_out = none → rag_out = none) := by
  simp only [run_pipeline] at h
  rcases hR : phase1_route rr with _ | route
  · rw [hR] at h
    exact absurd h (by simp)
  · rw [hR] at h
    dsimp only at h
    by_cases hc1 : route.route = kDb ∨ route.route = kBoth
    · rw [if_pos hc1] at h
      rcases hDB : phase2_db dr ex with _ | dbo
      · rw [hDB] at h
        exact absurd h (by simp)
      · rw [hDB] at h
        dsimp only at h
        by_cases hfb : route.route = kDb ∧ dbo.ok = false
        · rw [if_pos hfb] at h
          dsimp only at h
          by_cases hc2 : route.route = kRag ∨ route.route = kBoth
          · exact absurd hc2 (by
              rcases hc2 with h2 | h2 <;> rw [hfb.1] at h2 <;> exact absurd h2 (by decide))
          · rw [if_neg hc2] at h
            rcases hF : phase4_final q route (some dbo) (some (phase3_rag hits rg)) fr with
              _ | fin
            · rw [hF] at h
              exact absurd h (by simp)
            · rw [hF] at h
              cases h
              refine ⟨route, some dbo, some (phase3_rag hits rg), fin, rfl, hF, rfl,
                fun _ => ⟨dbo, rfl, rfl⟩, fun hnc => absurd hc1 hnc, ?_, ?_, ?_⟩
              · intro hc
                exact absurd hc hc2
              · intro _ dbo2 hdd
                obtain rfl : dbo = dbo2 := Option.some.inj hdd
                rw [if_pos hfb]
              · intro _ hdd
                exact Option.noConfusion hdd
        · rw [if_neg hfb] at h
          dsimp only at h
          by_cases hc2 : route.route = kRag ∨ route.route = kBoth
          · rw [if_pos hc2] at h
            rcases hF : phase4_final q route (some dbo) (some (phase3_rag hits rg)) fr with
              _ | fin
            · rw [hF] at h
              exact absurd h (by simp)
            · rw [hF] at h
              cases h
              refine ⟨route, some dbo, some (phase3_rag hits rg), fin, rfl, hF, rfl,
                fun _ => ⟨dbo, rfl, rfl⟩, fun hnc => absurd hc1 hnc, fun _ => rfl, ?_, ?_⟩
              · intro hnc
                exact absurd hc2 hnc
              · intro hnc
                exact absurd hc2 hnc
          · rw [if_neg hc2] at h
            rcases hF : phase4_final q route (some dbo) none fr with _ | fin
            · rw [hF] at h
              exact absurd h (by simp)
            · rw [hF] at h
              cases h
              refine ⟨route, some dbo, none, fin, rfl, hF, rfl,
                fun _ => ⟨dbo, rfl, rfl⟩, fun hnc => absurd hc1 hnc, ?_, ?_, ?_⟩
              · intro hc
                exact absurd hc hc2
              · intro _ dbo2 hdd
                obtain rfl : dbo = dbo2 := Option.some.inj hdd
                rw [if_neg hfb]
              · intro _ hdd
                exact Option.noConfusion hdd
    · rw [if_neg hc1] at h
      dsimp only at h
      by_cases hc2 : route.route = kRag ∨ route.route = kBoth
      · rw [if_pos hc2] at h
        rcases hF : phase4_final q route none (some (phase3_rag hits rg)) fr with _ | fin
        · rw [hF] at h
          exact absurd h (by simp)
        · rw [hF] at h
          cases h
          refine ⟨route, none, some (phase3_rag hits rg), fin, rfl, hF, rfl,
            fun hc => absurd hc hc1, fun _ => rfl, fun _ => rfl, ?_, ?_⟩
          · intro hnc
            exact absurd hc2 hnc
          · intro hnc
            exact absurd hc2 hnc
      · rw [if_neg hc2] at h
        rcases hF : phase4_final q route none none fr with _ | fin
        · rw [hF] at h
          exact absurd h (by simp)
        · rw [hF] at h
          cases h
          refine ⟨route, none, none, fin, rfl, hF, rfl,
            fun hc => absurd hc hc1, fun _ => rfl, ?_, ?_, fun _ _ => rfl⟩
          · intro hc
            exact absurd hc hc2
          · intro _ dbo2 hdd
            exact Option.noConfusion hdd

/-! Claim C3: orchestrator branch structure. -/

/-- Claim C3: in every completed run, the query phase executed iff the route
is db or both; the retrieval phase executed iff the route is rag or both, or
the route is db and the query result is not-ok (the fallback); route general
runs neither branch and composes with only the route decision as evidence; a
route-rag run never attempts a query; and the composer produced the answer
carried by the envelope. -/
theorem run_pipeline_branch_structure (q rr dr : List Char)
    (ex : List Char → Except (List Char) (List Row)) (hits : List RagHit)
    (rg fr : List Char) (env : Envelope)
    (h : run_pipeline q rr dr ex hits rg fr = some env) :
    (env.debug_db_out.isSome = true ↔
      (env.debug_route.route = kDb ∨ env.debug_route.route = kBoth)) ∧
    (env.debug_rag_out.isSome = true ↔
      (env.debug_route.route = kRag ∨ env.debug_route.route = kBoth ∨
       (env.debug_route.route = kDb ∧
        ∃ dbo, env.debug_db_out = some dbo ∧ dbo.ok = false))) ∧
    (env.debug_route.route = kGeneral →
      env.debug_db_out = none ∧ env.debug_rag_out = none ∧
      env.debug_evidence.db = none ∧ env.debug_evidence.rag = none) ∧
    (env.debug_route.route = kRag → env.debug_db_out = none) ∧
    (∃ fin, phase4_final q env.debug_route env.debug_db_out env.debug_rag_out fr
        = some fin ∧
      env.answer = fin.answer ∧ env.citations = fin.citations ∧
      env.quality_score = fin.quality_score) := by
  obtain ⟨route, db_out, rag_out, fin, hR, hF, rfl, hdb1, hdb2, hrag1, hrag2, hrag3⟩ :=
    run_pipeline_cases q rr dr ex hits rg fr env h
  refine ⟨?_, ?_, ?_, ?_, fin, hF, rfl, rfl, rfl⟩
  · constructor
    · intro hs
      by_cases hc1 : route.route = kDb ∨ route.route = kBoth
      · exact hc1
      · rw [hdb2 hc1] at hs
        exact absurd hs (by simp)
    · intro hc1
      obtain ⟨dbo, -, hdd⟩ := hdb1 hc1
      rw [hdd]
      rfl
  · constructor
    · intro hs
      by_cases hc2 : route.route = kRag ∨ route.route = kBoth
      · rcases hc2 with h2 | h2
        · exact Or.inl h2
        · exact Or.inr (Or.inl h2)
      · by_cases hc1 : route.route = kDb ∨ route.route = kBoth
        · obtain ⟨dbo, -, hdd⟩ := hdb1 hc1
          have hre := hrag2 hc2 dbo hdd
          by_cases hfb : route.route = kDb ∧ dbo.ok = false
          · exact Or.inr (Or.inr ⟨hfb.1, dbo, hdd, hfb.2⟩)
          · rw [hre, if_neg hfb] at hs
            exact absurd hs (by simp)
        · rw [hrag3 hc2 (hdb2 hc1)] at hs
          exact absurd hs (by simp)
    · rintro (h2 | h2 | ⟨hdbr, dbo, hdd, hok⟩)
      · rw [hrag1 (Or.inl h2)]
        rfl
      · rw [hrag1 (Or.inr h2)]
        rfl
      · by_cases hc2 : route.route = kRag ∨ route.route = kBoth
        · rw [hrag1 hc2]
          rfl
        · rw [hrag2 hc2 dbo hdd, if_pos ⟨hdbr, hok⟩]
          rfl
  · intro hg
    replace hg : route.route = kGeneral := hg
    have hne1 : ¬ (route.route = kDb ∨ route.route = kBoth) := by
      rintro (h2 | h2) <;> rw [hg] at h2 <;> exact absurd h2 (by decide)
    have hne2 : ¬ (route.route = kRag ∨ route.route = kBoth) := by
      rintro (h2 | h2) <;> rw [hg] at h2 <;> exact absurd h2 (by decide)
    have hdn : db_out = none := hdb2 hne1
    have hrn : rag_out = none := hrag3 hne2 hdn
    obtain ⟨-, -, -, hev, -⟩ := phase4_final_spec q route db_out rag_out fr fin hF
    refine ⟨hdn, hrn, ?_, ?_⟩
    · show fin.evidence.db = none
      rw [hev, hdn]
      rfl
    · show fin.evidence.rag = none
      rw [hev, hrn]
      rfl
  · intro hr
    replace hr : route.route = kRag := hr
    refine hdb2 ?_
    rintro (h2 | h2) <;> rw [hr] at h2 <;> exact absurd h2 (by decide)

/-- Claim C3 witness: the theorem applied to two complete concrete runs — a
route-general run (neither branch executed) and a route-db run with a
declined query (fallback retrieval executed before composing). -/
theorem run_pipeline_branch_structure_witness :
    ((envGeneralPlainRun.get (by rfl)).debug_db_out = none ∧
     (envGeneralPlainRun.get (by rfl)).debug_rag_out = none) ∧
    ((envDbFallbackRun.get (by rfl)).debug_db_out.isSome = true ∧
     (envDbFallbackRun.get (by rfl)).debug_rag_out.isSome = true) := by
  constructor
  · have hbs := run_pipeline_branch_structure "hi".toList exRawRouteGeneral "x".toList
      exOracleFail [] "x".toList exRawFinalNoCit (envGeneralPlainRun.get (by rfl))
      (Option.some_get (by rfl)).symm
    obtain ⟨hd, hr, -, -⟩ := hbs.2.2.1 (by rfl)
    exact ⟨hd, hr⟩
  · have hbs := run_pipeline_branch_structure "q".toList exRawRouteDb exRawSqlNull
      exOracleFail [exHit] "no json".toList exRawFinalNoCit
      (envDbFallbackRun.get (by rfl)) (Option.some_get (by rfl)).symm
    refine ⟨hbs.1.mpr (Or.inl (by rfl)), hbs.2.1.mpr (Or.inr (Or.inr ?_))⟩
    refine ⟨by rfl, (envDbFallbackRun.get (by rfl)).debug_db_out.get (by rfl), ?_, by rfl⟩
    exact (Option.some_get (by rfl)).symm

/-! Claim C10: the envelope mode is the routed decision, not the path taken. -/

/-- Claim C10: in every completed run the envelope's mode equals the route
decided by the intent router (and the debug trace carries that decision);
in particular a db-routed run that fell back to retrieval still reports db. -/
theorem run_pipeline_mode (q rr dr : List Char)
    (ex : List Char → Except (List Char) (List Row)) (hits : List RagHit)
    (rg fr : List Char) (env : Envelope)
    (h : run_pipeline q rr dr ex hits rg fr = some env)
    (rd : RouteDecision) (hR : phase1_route rr = some rd) :
    env.mode = rd.route ∧ env.debug_route = rd := by
  obtain ⟨route, db_out, rag_out, fin, hR2, hF, rfl, -⟩ :=
    run_pipeline_cases q rr dr ex hits rg fr env h
  rw [hR2] at hR
  obtain rfl : route = rd := Option.some.inj hR
  exact ⟨rfl, rfl⟩

/-- Claim C10 witness: the theorem applied to the concrete db-routed run whose
query declined and whose evidence came from the retrieval fallback — the mode
still reports db. -/
theorem run_pipeline_mode_witness :
    (envDbFallbackRun.get (by rfl)).mode = kDb ∧
    (envDbFallbackRun.get (by rfl)).debug_rag_out.isSome = true := by
  have hm := run_pipeline_mode "q".toList exRawRouteDb exRawSqlNull exOracleFail [exHit]
    "no json".toList exRawFinalNoCit (envDbFallbackRun.get (by rfl))
    (Option.some_get (by rfl)).symm ((phase1_route exRawRouteDb).get (by rfl))
    (Option.some_get (by rfl)).symm
  exact ⟨hm.1.trans (by rfl), by rfl⟩

/-! Claim C4: citations on route general. -/

/-- Claim C4 counterexample: a completed route-general run whose composer
emits a citation carries that citation in the envelope — nothing strips
composer-emitted citations on the general route, so the claim is false. -/
theorem c4_counterexample :
    ¬ (∀ q rr dr ex hits rg fr env, run_pipeline q rr dr ex hits rg fr = some env →
        env.debug_route.route = kGeneral → env.citations = Json.arr []) := by
  intro hAll
  have hs : envGeneralCitedRun.isSome = true := by rfl
  have h := hAll "hi".toList exRawRouteGeneral "x".toList exOracleFail [] "x".toList
    exRawFinalCited (envGeneralCitedRun.get hs) (Option.some_get hs).symm (by rfl)
  rw [show (envGeneralCitedRun.get hs).citations =
      Json.arr [Json.str "made-up.pdf".toList] from rfl] at h
  simp at h

/-- Claim C4 (amended): on a completed route-general run no retrieval output
exists, so no backfill can occur and the envelope citations are exactly the
composer's parsed citations-or-empty value; they are empty whenever the
composer emits no (or a falsy) citations field, but a composer-emitted
citation list passes through. -/
theorem run_pipeline_general_citations (q rr dr : List Char)
    (ex : List Char → Except (List Char) (List Row)) (hits : List RagHit)
    (rg fr : List Char) (env : Envelope)
    (h : run_pipeline q rr dr ex hits rg fr = some env)
    (hg : env.debug_route.route = kGeneral) :
    env.debug_rag_out = none ∧
    env.citations =
      pyOr ((dictGet ((safe_json_loads fr).getD []) kCitations).getD Json.null)
        (Json.arr []) := by
  obtain ⟨route, db_out, rag_out, fin, hR, hF, rfl, hdb1, hdb2, hrag1, hrag2, hrag3⟩ :=
    run_pipeline_cases q rr dr ex hits rg fr env h
  replace hg : route.route = kGeneral := hg
  have hne1 : ¬ (route.route = kDb ∨ route.route = kBoth) := by
    rintro (h2 | h2) <;> rw [hg] at h2 <;> exact absurd h2 (by decide)
  have hne2 : ¬ (route.route = kRag ∨ route.route = kBoth) := by
    rintro (h2 | h2) <;> rw [hg] at h2 <;> exact absurd h2 (by decide)
  have hdn : db_out = none := hdb2 hne1
  have hrn : rag_out = none := hrag3 hne2 hdn
  obtain ⟨-, -, hc, -, -⟩ := phase4_final_spec q route db_out rag_out fr fin hF
  refine ⟨hrn, ?_⟩
  show fin.citations = _
  rw [hc, hrn]
  rfl

/-- Claim C4 witness: the amended theorem applied to the route-general run
whose composer emits no citations — the envelope citations are empty. -/
theorem run_pipeline_general_citations_witness :
    (envGeneralPlainRun.get (by rfl)).debug_rag_out = none ∧
    (envGeneralPlainRun.get (by rfl)).citations = Json.arr [] := by
  have hgc := run_pipeline_general_citations "hi".toList exRawRouteGeneral "x".toList
    exOracleFail [] "x".toList exRawFinalNoCit (envGeneralPlainRun.get (by rfl))
    (Option.some_get (by rfl)).symm (by rfl)
  exact ⟨hgc.1, hgc.2.trans (by rfl)⟩

/-! Claim C6: the quality score and the unit interval. -/

/-- Claim C6 counterexample: a completed run whose composer reports a quality
score of 3 carries 3 in the envelope — no clamping to [0,1] exists, so the
claim is false. -/
theorem c6_counterexample :
    ¬ (∀ q rr dr ex hits rg fr env, run_pipeline q rr dr ex hits rg fr = some env →
        (Decimal.le ⟨0, 0⟩ env.quality_score && Decimal.le env.quality_score ⟨1, 0⟩)
          = true) := by
  intro hAll
  have hs : envScore3Run.isSome = true := by rfl
  have h := hAll "q".toList exRawRouteGeneral "x".toList exOracleFail [] "x".toList
    exRawFinalScore3 (envScore3Run.get hs) (Option.some_get hs).symm
  rw [show (envScore3Run.get hs).quality_score = ⟨3, 0⟩ from rfl] at h
  exact absurd h (by decide)

/-- Claim C6 (amended): the quality score carried by the FinalAnswer and by
the envelope is exactly `float(quality_score or 0.0)` of the parsed composer
output — passed through without clamping, so it lies in [0,1] only when the
composer emits such a value. -/
theorem run_pipeline_quality_passthrough (q rr dr : List Char)
    (ex : List Char → Except (List Char) (List Row)) (hits : List RagHit)
    (rg fr : List Char) (env : Envelope)
    (h : run_pipeline q rr dr ex hits rg fr = some env) :
    pyFloat (pyOr ((dictGet ((safe_json_loads fr).getD []) kQualityScore).getD
      (Json.num ⟨0, 0⟩)) (Json.num ⟨0, 0⟩)) = some env.quality_score := by
  obtain ⟨route, db_out, rag_out, fin, hR, hF, rfl, -⟩ :=
    run_pipeline_cases q rr dr ex hits rg fr env h
  exact (phase4_final_spec q route db_out rag_out fr fin hF).1

/-- Claim C6 witness: the amended theorem applied to the concrete run whose
composer reports 3 — the envelope carries exactly 3, outside [0,1]. -/
theorem run_pipeline_quality_passthrough_witness :
    pyFloat (pyOr ((dictGet ((safe_json_loads exRawFinalScore3).getD [])
        kQualityScore).getD (Json.num ⟨0, 0⟩)) (Json.num ⟨0, 0⟩))
      = some (envScore3Run.get (by rfl)).quality_score ∧
    (envScore3Run.get (by rfl)).quality_score = ⟨3, 0⟩ ∧
    Decimal.le (⟨3, 0⟩ : Decimal) ⟨1, 0⟩ = false := by
  refine ⟨?_, by rfl, by decide⟩
  exact run_pipeline_quality_passthrough "q".toList exRawRouteGeneral "x".toList
    exOracleFail [] "x".toList exRawFinalScore3 (envScore3Run.get (by rfl))
    (Option.some_get (by rfl)).symm

/-! List lemmas for the brace-window extraction of `safe_json_loads`. -/

/-- Dropping while a predicate holds stops at the first failing element, even
through an append. -/
theorem dropWhile_append_cons (pred : Char → Bool) (p rest : List Char) (c : Char)
    (hc : pred c = false) :
    List.dropWhile pred (p ++ c :: rest) = List.dropWhile pred p ++ c :: rest := by
  induction p with
  | nil => simp [List.dropWhile_cons, hc]
  | cons a t ih =>
    by_cases h : pred a <;> simp [List.dropWhile_cons, h, ih]

/-- Finding skips a prefix free of the sought character. -/
theorem pyFind_append_of_not_mem {c : Char} {p : List Char} (hp : c ∉ p)
    (l : List Char) :
    pyFind (p ++ l) c = (pyFind l c).map (fun i => i + p.length) := by
  induction p with
  | nil =>
    rcases h : pyFind l c with _ | i <;> simp [h]
  | cons a t ih =>
    have ha : a ≠ c := fun h => hp (h ▸ List.mem_cons_self a t)
    have ht : c ∉ t := fun h => hp (List.mem_cons_of_mem a h)
    rcases h : pyFind l c with _ | i
    · simp [pyFind, ha, ih ht, h]
    · simp [pyFind, ha, ih ht, h]
      omega

/-- Finding at a head occurrence. -/
theorem pyFind_cons_self (c : Char) (l : List Char) : pyFind (c :: l) c = some 0 := by
  simp [pyFind]

/-- A list free of the character has no last occurrence. -/
theorem pyRfind_eq_none {c : Char} {x : List Char} (hx : c ∉ x) : pyRfind x c = none := by
  induction x with
  | nil => rfl
  | cons a t ih =>
    have ha : a ≠ c := fun h => hx (h ▸ List.mem_cons_self a t)
    have ht : c ∉ t := fun h => hx (List.mem_cons_of_mem a h)
    simp [pyRfind, ih ht, ha]

/-- A suffix free of the character does not move the last occurrence. -/
theorem pyRfind_append_right {c : Char} {x : List Char} (hx : c ∉ x)
    (l : List Char) : pyRfind (l ++ x) c = pyRfind l c := by
  induction l with
  | nil => simpa [pyRfind] using pyRfind_eq_none hx
  | cons a t ih =>
    rcases h : pyRfind t c with _ | i <;> simp [pyRfind, ih, h]

/-- The last occurrence of a character appended at the end. -/
theorem pyRfind_append_self (l : List Char) (c : Char) :
    pyRfind (l ++ [c]) c = some l.length := by
  induction l with
  | nil => simp [pyRfind]
  | cons a t ih => simp [pyRfind, ih]

/-- Leading trim stops at a non-whitespace head, even through an append. -/
theorem trimL_concat (p rest : List Char) (c : Char) (hc : isWs c = false) :
    trimL (p ++ c :: rest) = trimL p ++ c :: rest :=
  dropWhile_append_cons isWs p rest c hc

/-- Trailing trim never reaches past a non-whitespace character. -/
theorem trimR_concat (A x : List Char) (c : Char) (hc : isWs c = false) :
    trimR (A ++ c :: x) = A ++ c :: trimR x := by
  unfold trimR
  rw [List.reverse_append, List.reverse_cons, List.append_assoc]
  rw [show ([c] ++ A.reverse : List Char) = c :: A.reverse from rfl]
  rw [dropWhile_append_cons isWs x.reverse A.reverse c hc]
  rw [List.reverse_append, List.reverse_cons, List.reverse_reverse]
  simp

/-- Stripping prose around a brace-delimited payload strips only the prose. -/
theorem pyStrip_concat (p mid x : List Char) :
    pyStrip (p ++ ('{' :: mid ++ ['}']) ++ x)
      = trimL p ++ ('{' :: mid ++ ['}']) ++ trimR x := by
  unfold pyStrip
  have h1 : p ++ ('{' :: mid ++ ['}']) ++ x = p ++ '{' :: (mid ++ ['}'] ++ x) := by simp
  rw [h1, trimL_concat p (mid ++ ['}'] ++ x) '{' (by rfl)]
  have h2 : trimL p ++ '{' :: (mid ++ ['}'] ++ x)
      = (trimL p ++ '{' :: mid) ++ '}' :: x := by simp
  rw [h2, trimR_concat (trimL p ++ '{' :: mid) x '}' (by rfl)]
  simp

/-- Leading trim keeps only elements of the original list. -/
theorem not_mem_trimL {c : Char} {p : List Char} (hp : c ∉ p) : c ∉ trimL p :=
  fun h => hp ((p.dropWhile_sublist isWs).mem h)

/-- Trailing trim keeps only elements of the original list. -/
theorem not_mem_trimR {c : Char} {x : List Char} (hx : c ∉ x) : c ∉ trimR x := by
  intro h
  rw [trimR, List.mem_reverse] at h
  exact hx (List.mem_reverse.mp ((x.reverse.dropWhile_sublist isWs).mem h))

/-! Claim C9: parser round-trip through surrounding prose. -/

/-- Claim C9 counterexample: with a prose prefix that itself contains an
opening brace, the single brace window spans from that stray brace and the
extraction fails, while the object alone parses — so the round-trip claimed
for every surrounding prose is false. -/
theorem c9_counterexample :
    ¬ (∀ (p s x : List Char) (d : List (List Char × Json)),
        json_loads s = some (Json.obj d) →
        safe_json_loads (p ++ s ++ x) = safe_json_loads s) := by
  intro hAll
  have h := hAll exPrefixBrace exObjText [] [(['a'], Json.num ⟨1, 0⟩)] (by rfl)
  rw [show safe_json_loads (exPrefixBrace ++ exObjText ++ []) = none from rfl,
      show safe_json_loads exObjText = some [(['a'], Json.num ⟨1, 0⟩)] from rfl] at h
  exact Option.noConfusion h

/-- Claim C9 (amended): the round-trip holds for prose wrapping that keeps
the single brace window intact: if the prefix contains no opening brace, the
suffix contains no closing brace, and the wrapped text does not itself parse
directly, then `safe_json_loads` extracts from the wrapped text exactly the
object it extracts from the brace-delimited payload alone. -/
theorem safe_json_loads_window (p mid x : List Char) (d : List (List Char × Json))
    (hp : '{' ∉ p) (hx : '}' ∉ x)
    (hparse : json_loads ('{' :: mid ++ ['}']) = some (Json.obj d))
    (hfail : json_loads (pyStrip (p ++ ('{' :: mid ++ ['}']) ++ x)) = none) :
    safe_json_loads (p ++ ('{' :: mid ++ ['}']) ++ x) = some d ∧
    safe_json_loads ('{' :: mid ++ ['}']) = some d := by
  have hp2 : '{' ∉ trimL p := not_mem_trimL hp
  have hx2 : '}' ∉ trimR x := not_mem_trimR hx
  rw [pyStrip_concat] at hfail
  constructor
  · have hf : pyFind (trimL p ++ ('{' :: mid ++ ['}']) ++ trimR x) '{'
        = some (trimL p).length := by
      rw [List.append_assoc, List.append_assoc, pyFind_append_of_not_mem hp2,
        List.cons_append, pyFind_cons_self]
      simp
    have hshape : trimL p ++ ('{' :: mid ++ ['}']) ++ trimR x
        = ((trimL p ++ '{' :: mid) ++ ['}']) ++ trimR x := by simp
    have hr : pyRfind (trimL p ++ ('{' :: mid ++ ['}']) ++ trimR x) '}'
        = some ((trimL p).length + (mid.length + 1)) := by
      rw [hshape, pyRfind_append_right hx2, pyRfind_append_self]
      simp
    have hne : (trimL p ++ ('{' :: mid ++ ['}']) ++ trimR x).isEmpty = false := by
      cases trimL p <;> rfl
    simp only [safe_json_loads, pyStrip_concat, hne, Bool.false_eq_true, if_false,
      hfail, hf, hr]
    rw [if_pos (by omega)]
    have harith : (trimL p).length + (mid.length + 1) + 1 - (trimL p).length
        = mid.length + 2 := by omega
    rw [harith]
    have hdrop : (trimL p ++ ('{' :: mid ++ ['}']) ++ trimR x).drop (trimL p).length
        = ('{' :: mid ++ ['}']) ++ trimR x := by
      rw [List.append_assoc]
      exact List.drop_left _ _
    rw [hdrop]
    have hslen : ('{' :: mid ++ ['}'] : List Char).length = mid.length + 2 := by simp
    rw [← hslen, List.take_left]
    rw [hparse]
  · have hstrip : pyStrip ('{' :: mid ++ ['}']) = '{' :: mid ++ ['}'] := by
      have := pyStrip_concat [] mid []
      simpa [trimL, trimR] using this
    have hne : (('{' :: mid ++ ['}'] : List Char)).isEmpty = false := rfl
    simp only [safe_json_loads, hstrip, hne, Bool.false_eq_true, if_false, hparse]

/-- Claim C9 witness: the amended theorem applied to a concrete object inside
brace-free prose — the wrapped and the bare text extract the same dict. -/
theorem safe_json_loads_window_witness :
    safe_json_loads (exProseP ++ ('{' :: exMid ++ ['}']) ++ exProseX)
      = some [(['a'], Json.num ⟨1, 0⟩)] ∧
    safe_json_loads ('{' :: exMid ++ ['}']) = some [(['a'], Json.num ⟨1, 0⟩)] :=
  safe_json_loads_window exProseP exMid exProseX [(['a'], Json.num ⟨1, 0⟩)]
    (by decide) (by decide) (by rfl) (by rfl)

end FraudChatbot
